import Mathlib

/-!
Shallow embedding of the radar scene model of `iko.py` (class ИКО):
coordinate transforms, target signature synthesis, clutter brightness,
coastline generation, kinematics integration and the history trail.

Floating-point arithmetic of the source is modelled over `ℝ` (for the
trigonometric components) and over `ℚ` (for the purely arithmetical
components), with Python's float `%` modelled as `pymod`.
-/

namespace Iko

/-- `math.radians`. -/
noncomputable def rad (x : ℝ) : ℝ := x * Real.pi / 180

/-- `math.degrees`. -/
noncomputable def deg (x : ℝ) : ℝ := x * 180 / Real.pi

/-- Python float `%` (result has the sign of the divisor): `x - y * ⌊x / y⌋`. -/
noncomputable def pymod (x y : ℝ) : ℝ := x - y * ⌊x / y⌋

/-- `math.atan2(x, y)`: the angle of the point with abscissa `y` and
ordinate `x`, in `(-π, π]`, modelled via `Complex.arg`. -/
noncomputable def atan2 (x y : ℝ) : ℝ := Complex.arg (y + x * Complex.I)

/-- `ИКО.polar_to_cartesian` (iko.py lines 391-396): bearing/range to
canvas coordinates. `center` is `self.center`, `ppm` is `self.pixel_per_mile`. -/
noncomputable def polar_to_cartesian (center ppm bearing range_val : ℝ) : ℝ × ℝ :=
  let angle_rad := rad (90 - bearing)
  (center + range_val * ppm * Real.cos angle_rad,
   center - range_val * ppm * Real.sin angle_rad)

/-- Modelled from the spec: the source has no inverse projection, so this is
the mathematical inverse of the spec's projection formula (§4.1, §8): range is
the centre distance divided by the scale, bearing is the compass angle of the
displacement, `degrees(atan2(dx, -dy)) % 360`. -/
noncomputable def cartesian_to_polar (center ppm x y : ℝ) : ℝ × ℝ :=
  (pymod (deg (atan2 (x - center) (center - y))) 360,
   Real.sqrt ((x - center) ^ 2 + (y - center) ^ 2) / ppm)

/-- `ИКО.calculate_angular_width` (iko.py lines 620-638), as a function of the
instance fields it reads. -/
noncomputable def calculate_angular_width
    (target_length target_width aspect_angle target_range : ℝ) : ℝ :=
  let L := max 0.1 target_length
  let B := max 0.1 target_width
  let a_rad := rad aspect_angle
  let sin_a := |Real.sin a_rad|
  let cos_a := |Real.cos a_rad|
  let projected_m := L * sin_a + B * cos_a
  let distance_m := max 1.0 (target_range * 1852.0)
  let angular_deg := deg (projected_m / distance_m) * 0.3
  max 0.18 (min 3.5 angular_deg)

/-- `ИКО.calculate_target_brightness` (iko.py lines 640-655), as a function of
the instance fields it reads (`math.log10 t = Real.logb 10 t`). -/
noncomputable def calculate_target_brightness
    (range_scale target_epr aspect_angle target_range : ℝ) : ℝ :=
  let epr := max 0.01 target_epr
  let epr_factor := Real.logb 10 (epr + 1)
  let aspect := max 0.0 (min 1.0 |Real.sin (rad aspect_angle)|)
  let range_factor := max 0.12 (1.0 - (target_range / range_scale) * 0.6)
  let brightness := 0.12 + epr_factor * aspect * range_factor * 1.5
  max 0.05 (min 1.0 brightness)

/-- `ИКО.calculate_clutter_brightness` (iko.py lines 657-662), over `ℚ`
(the function is pure arithmetic). -/
def calculate_clutter_brightness (range_scale base_intensity range_val : ℚ) : ℚ :=
  let max_clutter_brightness : ℚ := 0.8
  let range_factor := 1.0 - (range_val / range_scale) * 0.45
  let brightness := base_intensity * max_clutter_brightness * max 0.2 range_factor
  max 0.05 (min max_clutter_brightness brightness)

/-- The spec's formula for clutter brightness, written as stated in §4.3:
`clamp(base·0.8·max(0.2, 1 − (range/rangeScale)·0.45), 0.05, 0.8)` with
`clamp(v, lo, hi) = max lo (min hi v)`. -/
def clutterBrightnessSpec (range_scale base range_val : ℚ) : ℚ :=
  max 0.05 (min 0.8 (base * 0.8 * max 0.2 (1 - (range_val / range_scale) * 0.45)))

/-- A history fix `(bearing, range, epr)` as pushed by `add_to_history`. -/
abbrev Fix := ℚ × ℚ × ℚ

/-- `ИКО.add_to_history` (iko.py lines 791-801) acting on the
`deque(maxlen=trail_length)` `self.target_history`: `appendleft` on a full
deque evicts the rightmost (oldest) element, modelled by `List.take maxlen`
after consing; the head of the list is `self.target_history[0]`. -/
def add_to_history (maxlen : ℕ) (trail : List Fix) (b r e : ℚ) : List Fix :=
  match trail with
  | [] => List.take maxlen [(b, r, e)]
  | (last_b, last_r, _) :: _ =>
    if 1.0 < |b - last_b| ∨ 0.1 < |r - last_r| then
      List.take maxlen ((b, r, e) :: trail)
    else
      trail

/-- Folding a sequence of fixes through `add_to_history`, starting from a
given trail (the trail starts empty: `deque(maxlen=...)`). -/
def run_history (maxlen : ℕ) (trail : List Fix) (fixes : List Fix) : List Fix :=
  fixes.foldl (fun t f => add_to_history maxlen t f.1 f.2.1 f.2.2) trail

/-- The instance fields of `ИКО` read and written by the movement simulation
(iko.py lines 856-926), plus `emitted`: the trace of `self.info_var.set`
calls (each call appends its message). -/
structure RadarState where
  range_scale : ℝ
  target_range : ℝ
  target_bearing : ℝ
  target_epr : ℝ
  target_course : ℝ
  target_speed : ℝ
  simulation_interval : ℝ
  target_moving : Bool
  trail_length : ℕ
  target_history : List (ℝ × ℝ × ℝ)
  info_var : String
  emitted : List String

/-- `self.info_var.set(msg)`: records the current text and appends to the
emission trace. -/
def set_info (s : RadarState) (msg : String) : RadarState :=
  { s with info_var := msg, emitted := s.emitted ++ [msg] }

/-- `ИКО.stop_movement` (iko.py lines 866-869). -/
def stop_movement (s : RadarState) : RadarState :=
  set_info { s with target_moving := false } "Имитация движения остановлена"

/-- `ИКО.add_to_history` (iko.py lines 791-801) over the real-valued state
used by the kinematics tick; same logic as `add_to_history`. -/
noncomputable def add_to_history_real (maxlen : ℕ) (trail : List (ℝ × ℝ × ℝ))
    (b r e : ℝ) : List (ℝ × ℝ × ℝ) :=
  match trail with
  | [] => List.take maxlen [(b, r, e)]
  | (last_b, last_r, _) :: _ =>
    if 1.0 < |b - last_b| ∨ 0.1 < |r - last_r| then
      List.take maxlen ((b, r, e) :: trail)
    else
      trail

/-- `distance_moved` of a tick (iko.py lines 879-880):
`speed * (interval/1000) / 3600` miles. -/
noncomputable def tick_distance (s : RadarState) : ℝ :=
  s.target_speed * (s.simulation_interval / 1000.0) / 3600.0

/-- `new_x` of a tick (iko.py lines 885, 889, 893). -/
noncomputable def tick_new_x (s : RadarState) : ℝ :=
  s.target_range * Real.sin (rad s.target_bearing) +
    tick_distance s * Real.sin (rad s.target_course)

/-- `new_y` of a tick (iko.py lines 886, 890, 894). -/
noncomputable def tick_new_y (s : RadarState) : ℝ :=
  s.target_range * Real.cos (rad s.target_bearing) +
    tick_distance s * Real.cos (rad s.target_course)

/-- `new_range` of a tick (iko.py line 897). -/
noncomputable def tick_new_range (s : RadarState) : ℝ :=
  Real.sqrt (tick_new_x s ^ 2 + tick_new_y s ^ 2)

/-- `new_bearing` of a tick (iko.py line 898). -/
noncomputable def tick_new_bearing (s : RadarState) : ℝ :=
  pymod (deg (atan2 (tick_new_x s) (tick_new_y s))) 360

/-- `ИКО.simulate_movement` (iko.py lines 871-926). Returns the state after
the tick and whether `self.root.after(...)` re-armed a further tick.
`fault = some e` models an exception with text `e` raised inside the `try`
body, handled by the `except` clause (report the error, `stop_movement`,
no re-arm); `fault = none` is the normal run of the body. -/
noncomputable def simulate_movement (s : RadarState) (fault : Option String) :
    RadarState × Bool :=
  if s.target_moving = false then (s, false)
  else
    match fault with
    | some e => (stop_movement (set_info s ("Ошибка имитации: " ++ e)), false)
    | none =>
      if s.range_scale - 0.5 ≤ tick_new_range s then
        (stop_movement (set_info s "Цель вышла за пределы радара"), false)
      else
        let s' := { s with target_range := tick_new_range s,
                           target_bearing := tick_new_bearing s }
        let hist := add_to_history_real s.trail_length s.target_history
          (tick_new_bearing s) (tick_new_range s) s.target_epr
        ({ s' with target_history := hist }, true)

/-- The clamped raw range of coastline sample `i` (iko.py lines 938-943):
`u2 i` is the draw `random.uniform(-10, 10)` inside the sine phase and
`u3 i` the jitter draw `random.uniform(-0.05·rs, 0.05·rs)`; the claims hold
for arbitrary real draws. -/
noncomputable def coast_raw_range (rs : ℝ) (u2 u3 : ℕ → ℝ) (i : ℕ) : ℝ :=
  let base_range := rs * 0.75 + Real.sin (rad ((i : ℝ) * 8 + u2 i)) * (rs * 0.15)
  max (rs * 0.5) (min (rs - 1.0) (base_range + u3 i))

/-- The bearing of coastline sample `i` (iko.py line 939), before `% 360`. -/
noncomputable def coast_angle (base_dir : ℝ) (i : ℕ) : ℝ :=
  (base_dir - 60) + ((i : ℝ) / (40 - 1)) * 120

/-- The smoothed range of coastline sample `i` (iko.py lines 947-956):
circular moving average of the raw ranges over indices `i-2 … i+2 (mod 40)`. -/
noncomputable def coast_smooth_range (rs : ℝ) (u2 u3 : ℕ → ℝ) (i : ℕ) : ℝ :=
  (coast_raw_range rs u2 u3 ((i + 38) % 40) +
   coast_raw_range rs u2 u3 ((i + 39) % 40) +
   coast_raw_range rs u2 u3 (i % 40) +
   coast_raw_range rs u2 u3 ((i + 1) % 40) +
   coast_raw_range rs u2 u3 ((i + 2) % 40)) / 5

/-- `ИКО.generate_coastline` (iko.py lines 929-957): 40 samples over a 120°
arc based at `(target_bearing + 120 + u1) % 360` (`u1` the
`random.uniform(-20, 20)` draw), ranges clamped then circularly smoothed. -/
noncomputable def generate_coastline (target_bearing rs : ℝ) (u1 : ℝ)
    (u2 u3 : ℕ → ℝ) : List (ℝ × ℝ) :=
  let base_dir := pymod (target_bearing + 120 + u1) 360
  List.ofFn (fun i : Fin 40 =>
    (pymod (coast_angle base_dir i) 360, coast_smooth_range rs u2 u3 i))

/-- A concrete moving state about to leave the scope: bearing 0, course 0,
speed 3600 kn, 1000 ms tick, range `range_scale − 0.4`. One tick moves it
1 nm due north to 24.6 ≥ 24 − 0.5. -/
noncomputable def exitState : RadarState :=
  { range_scale := 24, target_range := 23.6, target_bearing := 0,
    target_epr := 1, target_course := 0, target_speed := 3600,
    simulation_interval := 1000, target_moving := true, trail_length := 30,
    target_history := [], info_var := "", emitted := [] }

/-- A concrete moving state for the closed-form kinematics check: bearing 0,
range 5 nm, course 0, speed 3600 kn, 1000 ms tick. -/
noncomputable def northState : RadarState :=
  { range_scale := 24, target_range := 5, target_bearing := 0,
    target_epr := 1, target_course := 0, target_speed := 3600,
    simulation_interval := 1000, target_moving := true, trail_length := 30,
    target_history := [], info_var := "", emitted := [] }

/-! ## Theorems -/

/-- Inserting through `add_to_history` keeps the trail within capacity. -/
theorem add_to_history_length_le (maxlen : ℕ) (t : List Fix) (b r e : ℚ)
    (ht : t.length ≤ maxlen) : (add_to_history maxlen t b r e).length ≤ maxlen := by
  unfold add_to_history
  match t with
  | [] => simp [List.length_take]
  | (lb, lr, le) :: rest =>
    dsimp only
    split
    · simp [List.length_take]
    · exact ht

/-- Capacity invariant is preserved by any run of appends. -/
theorem run_history_length_le (maxlen : ℕ) (fixes : List Fix) (t : List Fix)
    (ht : t.length ≤ maxlen) : (run_history maxlen t fixes).length ≤ maxlen := by
  induction fixes generalizing t with
  | nil => exact ht
  | cons f fs ih =>
    exact ih _ (add_to_history_length_le maxlen t f.1 f.2.1 f.2.2 ht)

/-- C3: starting from the empty trail, any sequence of appends leaves at most
`trail_length` entries, and appending a fix within the deadband (bearing
within 1.0° and range within 0.1 nm of the most recent entry) of a non-empty
trail leaves the trail unchanged. -/
theorem trail_bounded_and_deadband (maxlen : ℕ) (fixes : List Fix) :
    (run_history maxlen [] fixes).length ≤ maxlen
    ∧ ∀ b r e lb lr le rest, |b - lb| ≤ 1.0 → |r - lr| ≤ 0.1 →
        add_to_history maxlen ((lb, lr, le) :: rest) b r e = (lb, lr, le) :: rest := by
  constructor
  · exact run_history_length_le maxlen fixes [] (by simp)
  · intro b r e lb lr le rest h1 h2
    simp only [add_to_history]
    rw [if_neg]
    push_neg
    exact ⟨h1, h2⟩

/-- Witness for C3 at capacity 2 with three distant fixes and one deadband
append. -/
theorem trail_bounded_and_deadband_witness :
    (run_history 2 [] [(0, 0, 1), (10, 5, 1), (20, 9, 1)]).length ≤ 2
    ∧ add_to_history 2 [(0, 0, 1)] 0.5 0.05 7 = [(0, 0, 1)] :=
  ⟨(trail_bounded_and_deadband 2 [(0, 0, 1), (10, 5, 1), (20, 9, 1)]).1,
   (trail_bounded_and_deadband 2 []).2 0.5 0.05 7 0 0 1 []
     (abs_le.mpr (by norm_num)) (abs_le.mpr (by norm_num))⟩

/-- C10: with `trail_length = 0` the deque has zero capacity, so the trail is
always empty and every append to the (always-empty) trail is a no-op. -/
theorem trail_zero_capacity (fixes : List Fix) :
    run_history 0 [] fixes = []
    ∧ ∀ b r e : ℚ, add_to_history 0 [] b r e = [] := by
  constructor
  · induction fixes with
    | nil => rfl
    | cons f fs ih => simpa [run_history, add_to_history] using ih
  · intro b r e
    rfl

/-- C9: `calculate_clutter_brightness` coincides with the spec's closed-form
clamp expression, and its value always lies in `[0.05, 0.8]`. -/
theorem clutter_brightness_exact (range_scale base range_val : ℚ) :
    calculate_clutter_brightness range_scale base range_val
      = clutterBrightnessSpec range_scale base range_val
    ∧ 0.05 ≤ calculate_clutter_brightness range_scale base range_val
    ∧ calculate_clutter_brightness range_scale base range_val ≤ 0.8 := by
  refine ⟨by norm_num [calculate_clutter_brightness, clutterBrightnessSpec], ?_, ?_⟩
  · exact le_max_left _ _
  · unfold calculate_clutter_brightness
    exact max_le (by norm_num) (min_le_left _ _)

/-- C5: the angular width is clamped into `[0.18, 3.5]` degrees for every
combination of length, width, aspect and range. -/
theorem angular_width_bounds (target_length target_width aspect_angle target_range : ℝ) :
    0.18 ≤ calculate_angular_width target_length target_width aspect_angle target_range
    ∧ calculate_angular_width target_length target_width aspect_angle target_range ≤ 3.5 := by
  unfold calculate_angular_width
  exact ⟨le_max_left _ _, max_le (by norm_num) (min_le_left _ _)⟩

/-- C4: for fixed aspect and in-scope range, target brightness is monotone
non-decreasing in EPR, and every brightness value lies in `[0.05, 1.0]`. -/
theorem brightness_mono_and_bounded (range_scale aspect_angle target_range e₁ e₂ : ℝ)
    (_hr0 : 0 < target_range) (_hrs : target_range ≤ range_scale) (he : e₁ ≤ e₂) :
    calculate_target_brightness range_scale e₁ aspect_angle target_range
      ≤ calculate_target_brightness range_scale e₂ aspect_angle target_range
    ∧ ∀ e, 0.05 ≤ calculate_target_brightness range_scale e aspect_angle target_range
        ∧ calculate_target_brightness range_scale e aspect_angle target_range ≤ 1.0 := by
  constructor
  · simp only [calculate_target_brightness]
    have h01 : (0.01 : ℝ) ≤ max 0.01 e₁ := le_max_left _ _
    have hpos : (0 : ℝ) < max 0.01 e₁ + 1 := by linarith
    have hle : max 0.01 e₁ + 1 ≤ max 0.01 e₂ + 1 := by
      have := max_le_max (le_refl (0.01 : ℝ)) he
      linarith
    have hf : Real.logb 10 (max 0.01 e₁ + 1) ≤ Real.logb 10 (max 0.01 e₂ + 1) :=
      Real.logb_le_logb_of_le (by norm_num) hpos hle
    have hA0 : (0 : ℝ) ≤ max 0.0 (min 1.0 |Real.sin (rad aspect_angle)|) :=
      le_trans (by norm_num) (le_max_left _ _)
    have hR0 : (0 : ℝ) ≤ max 0.12 (1.0 - target_range / range_scale * 0.6) :=
      le_trans (by norm_num) (le_max_left _ _)
    have s1 := mul_le_mul_of_nonneg_right hf hA0
    have s2 := mul_le_mul_of_nonneg_right s1 hR0
    have s3 := mul_le_mul_of_nonneg_right s2 (by norm_num : (0 : ℝ) ≤ 1.5)
    exact max_le_max le_rfl (min_le_min le_rfl (by linarith))
  · intro e
    simp only [calculate_target_brightness]
    exact ⟨le_max_left _ _, max_le (by norm_num) (min_le_left _ _)⟩

/-- Witness for C4 at the session defaults: range scale 24, aspect 70°,
range 8 nm, EPR 1 against EPR 2. -/
theorem brightness_mono_and_bounded_witness :
    calculate_target_brightness 24 1 70 8 ≤ calculate_target_brightness 24 2 70 8
    ∧ 0.05 ≤ calculate_target_brightness 24 1 70 8
    ∧ calculate_target_brightness 24 1 70 8 ≤ 1.0 := by
  have h := brightness_mono_and_bounded 24 70 8 1 2 (by norm_num) (by norm_num) (by norm_num)
  exact ⟨h.1, h.2 1⟩

/-- C1: a Moving tick whose integrated range reaches `range_scale − 0.5`
stops the state machine, emits the scope-exit status (followed by the stop
status from `stop_movement`), leaves position and trail uncommitted, and does
not re-arm a further tick. -/
theorem scope_exit_tick (s : RadarState) (hm : s.target_moving = true)
    (hout : s.range_scale - 0.5 ≤ tick_new_range s) :
    (simulate_movement s none).1.target_moving = false
    ∧ (simulate_movement s none).1.emitted
        = s.emitted ++ ["Цель вышла за пределы радара", "Имитация движения остановлена"]
    ∧ (simulate_movement s none).1.target_range = s.target_range
    ∧ (simulate_movement s none).1.target_bearing = s.target_bearing
    ∧ (simulate_movement s none).1.target_history = s.target_history
    ∧ (simulate_movement s none).2 = false := by
  simp [simulate_movement, hm, hout, stop_movement, set_info]

/-- Witness for C1: the state at range `range_scale − 0.4` heading due north
at 3600 kn integrates to 24.6 nm ≥ 23.5 and exits. -/
theorem scope_exit_tick_witness :
    (simulate_movement exitState none).1.target_moving = false
    ∧ (simulate_movement exitState none).1.emitted
        = exitState.emitted
            ++ ["Цель вышла за пределы радара", "Имитация движения остановлена"]
    ∧ (simulate_movement exitState none).1.target_range = exitState.target_range
    ∧ (simulate_movement exitState none).1.target_bearing = exitState.target_bearing
    ∧ (simulate_movement exitState none).1.target_history = exitState.target_history
    ∧ (simulate_movement exitState none).2 = false := by
  refine scope_exit_tick exitState rfl ?_
  have hx : tick_new_x exitState = 0 := by
    simp [tick_new_x, tick_distance, exitState, rad]
  have hy : tick_new_y exitState = 24.6 := by
    simp [tick_new_y, tick_distance, exitState, rad]
    norm_num
  have hr : tick_new_range exitState = 24.6 := by
    rw [tick_new_range, hx, hy,
      show (0 : ℝ) ^ 2 + 24.6 ^ 2 = 24.6 ^ 2 by norm_num,
      Real.sqrt_sq (by norm_num : (0 : ℝ) ≤ 24.6)]
  rw [hr]
  simp [exitState]
  norm_num

/-- C8: an exception raised inside the tick body is caught by the tick: the
state machine is forced to Stopped, the error is reported as a status
message, and no further tick is armed. (The tick is a total function of the
state and the fault, so no exception propagates.) -/
theorem tick_fault_failsafe (s : RadarState) (e : String)
    (hm : s.target_moving = true) :
    (simulate_movement s (some e)).1.target_moving = false
    ∧ (simulate_movement s (some e)).1.emitted
        = s.emitted ++ ["Ошибка имитации: " ++ e, "Имитация движения остановлена"]
    ∧ (simulate_movement s (some e)).2 = false := by
  simp [simulate_movement, hm, stop_movement, set_info]

/-- Witness for C8 with a concrete moving state and fault text. -/
theorem tick_fault_failsafe_witness :
    (simulate_movement northState (some "err")).1.target_moving = false
    ∧ (simulate_movement northState (some "err")).1.emitted
        = northState.emitted
            ++ ["Ошибка имитации: " ++ "err", "Имитация движения остановлена"]
    ∧ (simulate_movement northState (some "err")).2 = false :=
  tick_fault_failsafe northState "err" rfl

/-- C7: the closed-form kinematics check: bearing 0°, range 5 nm, course 0°,
speed 3600 kn and a 1000 ms tick move the target exactly 1 nm due north, to
range 6 nm and bearing 0°, provided the scope-exit guard cannot fire. -/
theorem north_tick (s : RadarState) (hm : s.target_moving = true)
    (hb : s.target_bearing = 0) (hr : s.target_range = 5)
    (hc : s.target_course = 0) (hs : s.target_speed = 3600)
    (hi : s.simulation_interval = 1000) (hrs : 6 < s.range_scale - 0.5) :
    (simulate_movement s none).1.target_range = 6
    ∧ (simulate_movement s none).1.target_bearing = 0 := by
  have hd : tick_distance s = 1 := by
    rw [tick_distance, hs, hi]
    norm_num
  have hx : tick_new_x s = 0 := by
    rw [tick_new_x, hb, hc, hd, hr]
    simp [rad]
  have hy : tick_new_y s = 6 := by
    rw [tick_new_y, hb, hc, hd, hr]
    simp [rad]
    norm_num
  have hR : tick_new_range s = 6 := by
    rw [tick_new_range, hx, hy,
      show (0 : ℝ) ^ 2 + 6 ^ 2 = 6 ^ 2 by norm_num,
      Real.sqrt_sq (by norm_num : (0 : ℝ) ≤ 6)]
  have hB : tick_new_bearing s = 0 := by
    rw [tick_new_bearing, hx, hy]
    have hc6 : ((6 : ℝ) : ℂ) + ((0 : ℝ) : ℂ) * Complex.I = ((6 : ℝ) : ℂ) := by
      push_cast
      ring
    rw [atan2, hc6, Complex.arg_ofReal_of_nonneg (by norm_num)]
    simp [deg, pymod]
  have hguard : ¬ (s.range_scale - 0.5 ≤ tick_new_range s) := by
    rw [hR]
    linarith
  have hguard' : ¬ (s.range_scale ≤ 6 + 0.5) := by linarith
  simp [simulate_movement, hm, hguard, hguard', hR, hB]

/-- Witness for C7: the concrete due-north state with range scale 24. -/
theorem north_tick_witness :
    (simulate_movement northState none).1.target_range = 6
    ∧ (simulate_movement northState none).1.target_bearing = 0 :=
  north_tick northState rfl rfl rfl rfl rfl rfl (by norm_num [northState])

/-- Every clamped coastline sample range lies in the clamp interval once the
interval is non-degenerate (`2 ≤ rs`). -/
theorem coast_raw_range_mem (rs : ℝ) (u2 u3 : ℕ → ℝ) (i : ℕ) (h2 : 2 ≤ rs) :
    rs * 0.5 ≤ coast_raw_range rs u2 u3 i
    ∧ coast_raw_range rs u2 u3 i ≤ rs - 1.0 := by
  unfold coast_raw_range
  exact ⟨le_max_left _ _, max_le (by linarith) (min_le_left _ _)⟩

/-- The circular moving average preserves the clamp interval. -/
theorem coast_smooth_range_mem (rs : ℝ) (u2 u3 : ℕ → ℝ) (i : ℕ) (h2 : 2 ≤ rs) :
    rs * 0.5 ≤ coast_smooth_range rs u2 u3 i
    ∧ coast_smooth_range rs u2 u3 i ≤ rs - 1.0 := by
  obtain ⟨a1, b1⟩ := coast_raw_range_mem rs u2 u3 ((i + 38) % 40) h2
  obtain ⟨a2, b2⟩ := coast_raw_range_mem rs u2 u3 ((i + 39) % 40) h2
  obtain ⟨a3, b3⟩ := coast_raw_range_mem rs u2 u3 (i % 40) h2
  obtain ⟨a4, b4⟩ := coast_raw_range_mem rs u2 u3 ((i + 1) % 40) h2
  obtain ⟨a5, b5⟩ := coast_raw_range_mem rs u2 u3 ((i + 2) % 40) h2
  unfold coast_smooth_range
  constructor
  · linarith
  · linarith

/-- C6: every invocation of the coastline generator returns exactly 40
smoothed vertices, each with range in `[0.5·rs, rs − 1.0]`, for arbitrary
random draws (the program always calls it with `rs = 24`). -/
theorem coastline_shape (target_bearing rs u1 : ℝ) (u2 u3 : ℕ → ℝ)
    (h2 : 2 ≤ rs) :
    (generate_coastline target_bearing rs u1 u2 u3).length = 40
    ∧ ∀ p ∈ generate_coastline target_bearing rs u1 u2 u3,
        rs * 0.5 ≤ p.2 ∧ p.2 ≤ rs - 1.0 := by
  constructor
  · simp [generate_coastline]
  · intro p hp
    simp only [generate_coastline, List.mem_ofFn] at hp
    obtain ⟨i, hi⟩ := hp
    rw [← hi]
    exact coast_smooth_range_mem rs u2 u3 i h2

/-- Witness for C6 at the session's range scale 24 and zero draws. -/
theorem coastline_shape_witness :
    (generate_coastline 40 24 0 (fun _ => 0) (fun _ => 0)).length = 40
    ∧ ∀ p ∈ generate_coastline 40 24 0 (fun _ => 0) (fun _ => 0),
        24 * 0.5 ≤ p.2 ∧ p.2 ≤ 24 - 1.0 :=
  coastline_shape 40 24 0 (fun _ => 0) (fun _ => 0) (by norm_num)

/-- Python float `%` is the identity on `[0, y)`. -/
theorem pymod_self_of_lt (x y : ℝ) (h0 : 0 ≤ x) (hxy : x < y) : pymod x y = x := by
  have hy : 0 < y := lt_of_le_of_lt h0 hxy
  unfold pymod
  rw [Int.floor_eq_zero_iff.mpr
    (Set.mem_Ico.mpr ⟨div_nonneg h0 hy.le, (div_lt_one hy).mpr hxy⟩)]
  simp

/-- A polar displacement of modulus `k` has centre distance `k`. -/
theorem sqrt_polar (k φ : ℝ) (hk : 0 ≤ k) :
    Real.sqrt ((k * Real.sin φ) ^ 2 + (k * Real.cos φ) ^ 2) = k := by
  have h : (k * Real.sin φ) ^ 2 + (k * Real.cos φ) ^ 2 = k ^ 2 := by
    linear_combination k ^ 2 * Real.sin_sq_add_cos_sq φ
  rw [h, Real.sqrt_sq hk]

/-- Recovering the compass bearing of a displacement of positive modulus. -/
theorem arg_recover (k b : ℝ) (hk : 0 < k) (hb0 : 0 ≤ b) (hb1 : b < 360) :
    pymod (deg (atan2 (k * Real.sin (rad b)) (k * Real.cos (rad b)))) 360 = b := by
  have hπ := Real.pi_pos
  rw [atan2]
  have hcast : ((k * Real.cos (rad b) : ℝ) : ℂ) + ((k * Real.sin (rad b) : ℝ) : ℂ) * Complex.I
      = ((k : ℝ) : ℂ) * (((Real.cos (rad b) : ℝ) : ℂ) + ((Real.sin (rad b) : ℝ) : ℂ) * Complex.I) := by
    push_cast
    ring
  rw [hcast, Complex.arg_real_mul _ hk]
  by_cases hb : b ≤ 180
  · have hmem : rad b ∈ Set.Ioc (-Real.pi) Real.pi := by
      constructor
      · have h1 : 0 ≤ b * Real.pi := mul_nonneg hb0 hπ.le
        unfold rad
        linarith
      · unfold rad
        nlinarith
    rw [Complex.ofReal_cos, Complex.ofReal_sin, Complex.arg_cos_add_sin_mul_I hmem]
    have hdeg : deg (rad b) = b := by
      unfold deg rad
      field_simp
    rw [hdeg, pymod_self_of_lt b 360 hb0 hb1]
  · push_neg at hb
    have hmem : rad b - 2 * Real.pi ∈ Set.Ioc (-Real.pi) Real.pi := by
      constructor
      · unfold rad
        nlinarith
      · unfold rad
        nlinarith
    rw [show ((Real.cos (rad b) : ℝ) : ℂ) + ((Real.sin (rad b) : ℝ) : ℂ) * Complex.I
        = ((Real.cos (rad b - 2 * Real.pi) : ℝ) : ℂ)
            + ((Real.sin (rad b - 2 * Real.pi) : ℝ) : ℂ) * Complex.I by
      rw [Real.cos_sub_two_pi, Real.sin_sub_two_pi]]
    rw [Complex.ofReal_cos, Complex.ofReal_sin, Complex.arg_cos_add_sin_mul_I hmem]
    have hdeg : deg (rad b - 2 * Real.pi) = b - 360 := by
      unfold deg rad
      field_simp
      ring
    rw [hdeg]
    unfold pymod
    have hfl : ⌊(b - 360) / 360⌋ = -1 := by
      apply Int.floor_eq_iff.mpr
      constructor
      · push_cast
        rw [le_div_iff₀ (by norm_num : (0 : ℝ) < 360)]
        linarith
      · push_cast
        rw [div_lt_iff₀ (by norm_num : (0 : ℝ) < 360)]
        linarith
    rw [hfl]
    push_cast
    ring

/-- C2 counterexample: at range 0 every bearing projects to the scope centre,
so no inverse can recover the bearing; the inverse projection returns
bearing 0 there, not 180 (and `180 % 360 = 180`). -/
theorem roundtrip_fails_at_zero_range :
    cartesian_to_polar 300 10 (polar_to_cartesian 300 10 180 0).1
        (polar_to_cartesian 300 10 180 0).2 ≠ (pymod 180 360, 0) := by
  have hp : polar_to_cartesian 300 10 180 0 = (300, 300) := by
    simp [polar_to_cartesian]
  rw [hp]
  have hb : (cartesian_to_polar 300 10 300 300).1 = 0 := by
    simp [cartesian_to_polar, atan2, deg, pymod, Complex.arg_zero]
  have hm : pymod 180 360 = 180 := pymod_self_of_lt 180 360 (by norm_num) (by norm_num)
  intro hEq
  rw [Prod.ext_iff, hb, hm] at hEq
  exact absurd hEq.1 (by norm_num)

/-- C2 (amended): for bearing `b ∈ [0, 360)` and strictly positive range,
projecting through `polar_to_cartesian` and inverse-projecting recovers
`(b, r)` exactly (which equals `(b mod 360, r)` on this domain); the original
claim's `r ≥ 0` fails at `r = 0`, where all bearings collapse to the centre. -/
theorem projection_roundtrip (center ppm b r : ℝ) (hppm : 0 < ppm)
    (hb0 : 0 ≤ b) (hb1 : b < 360) (hr : 0 < r) :
    cartesian_to_polar center ppm (polar_to_cartesian center ppm b r).1
        (polar_to_cartesian center ppm b r).2 = (b, r) := by
  have hrot : rad (90 - b) = Real.pi / 2 - rad b := by
    unfold rad
    ring
  have hcos : Real.cos (rad (90 - b)) = Real.sin (rad b) := by
    rw [hrot, Real.cos_pi_div_two_sub]
  have hsin : Real.sin (rad (90 - b)) = Real.cos (rad b) := by
    rw [hrot, Real.sin_pi_div_two_sub]
  have hk : 0 < r * ppm := mul_pos hr hppm
  simp only [polar_to_cartesian, cartesian_to_polar]
  rw [hcos, hsin]
  rw [show center + r * ppm * Real.sin (rad b) - center = r * ppm * Real.sin (rad b) by ring]
  rw [show center - (center - r * ppm * Real.cos (rad b)) = r * ppm * Real.cos (rad b) by ring]
  rw [show center - r * ppm * Real.cos (rad b) - center = -(r * ppm * Real.cos (rad b)) by ring]
  rw [Prod.mk.injEq]
  constructor
  · exact arg_recover (r * ppm) b hk hb0 hb1
  · rw [show (-(r * ppm * Real.cos (rad b))) ^ 2 = (r * ppm * Real.cos (rad b)) ^ 2 by ring]
    rw [sqrt_polar (r * ppm) (rad b) hk.le]
    exact mul_div_cancel_right₀ r hppm.ne'

/-- Witness for the amended C2 at bearing 45°, range 8 nm, centre 300,
10 pixels per mile. -/
theorem projection_roundtrip_witness :
    cartesian_to_polar 300 10 (polar_to_cartesian 300 10 45 8).1
        (polar_to_cartesian 300 10 45 8).2 = (45, 8) :=
  projection_roundtrip 300 10 45 8 (by norm_num) (by norm_num) (by norm_num) (by norm_num)

end Iko
